import Mathlib

/-
Shallow embedding of the GearGuard maintenance-tracking core:
the maintenance-request lifecycle service (createRequest, assignRequest,
updateStatus, completeRequest, scrapRequest, validateStatusTransition,
validatePreventiveMaintenanceScheduling), the equipment service
(updateEquipment), the audit-log writer (LogService.createLogEntry) and the
authorization helpers (canViewRequest, canModifyRequest).

The persistence layer (Prisma over PostgreSQL) is modelled as an explicit
Store value holding the rows of the five entity tables; each service method
becomes a pure function from a Store (plus its arguments) to
Except ServiceError Store.  Database ids are natural numbers (the schema uses
autoincrement integer ids, which are always at least 1).  Timestamps are
modelled as integer milliseconds since the epoch, mirroring JavaScript Date
arithmetic.
-/

namespace GearGuard

/-- Roles of the User model (enum Role in the Prisma schema). -/
inductive Role where
  | ADMIN
  | MANAGER
  | TECHNICIAN
deriving DecidableEq, Repr

/-- MaintenanceStatus enum: NEW, IN_PROGRESS, REPAIRED, SCRAP. -/
inductive MStatus where
  | NEW
  | IN_PROGRESS
  | REPAIRED
  | SCRAP
deriving DecidableEq, Repr

/-- MaintenanceType enum: CORRECTIVE, PREVENTIVE. -/
inductive MType where
  | CORRECTIVE
  | PREVENTIVE
deriving DecidableEq, Repr

/-- The distinct error sites of the embedded services.  Each constructor
corresponds to one throw site in the source; errorCode below recovers the
ERROR_CODES value the site attaches to the thrown error. -/
inductive ServiceError where
  | requestNotFound
  | equipmentNotFound
  | userNotFound
  | teamNotFound
  | validationError
  | serialNumberTaken
  | teamMismatch
  | equipmentScrapped
  | invalidStatusTransition (src dst : MStatus)
  | technicianTargetRestriction
  | completeNotInProgress
  | insufficientPermissions
  | teamAccessDenied
deriving DecidableEq, Repr

/-- The ERROR_CODES constants referenced by the embedded throw sites. -/
inductive ErrCode where
  | REQUEST_NOT_FOUND
  | EQUIPMENT_NOT_FOUND
  | USER_NOT_FOUND
  | TEAM_NOT_FOUND
  | VALIDATION_ERROR
  | TEAM_ASSIGNMENT_MISMATCH
  | EQUIPMENT_SCRAPPED
  | INVALID_STATUS_TRANSITION
  | INSUFFICIENT_PERMISSIONS
  | TEAM_ACCESS_DENIED
deriving DecidableEq, Repr

/-- The error.code value attached at each throw site.  Note that the
technician-target restriction inside updateStatus and the not-in-progress
check inside completeRequest reuse ERROR_CODES.INVALID_STATUS_TRANSITION. -/
def ServiceError.errorCode : ServiceError → ErrCode
  | .requestNotFound => .REQUEST_NOT_FOUND
  | .equipmentNotFound => .EQUIPMENT_NOT_FOUND
  | .userNotFound => .USER_NOT_FOUND
  | .teamNotFound => .TEAM_NOT_FOUND
  | .validationError => .VALIDATION_ERROR
  | .serialNumberTaken => .VALIDATION_ERROR
  | .teamMismatch => .TEAM_ASSIGNMENT_MISMATCH
  | .equipmentScrapped => .EQUIPMENT_SCRAPPED
  | .invalidStatusTransition _ _ => .INVALID_STATUS_TRANSITION
  | .technicianTargetRestriction => .INVALID_STATUS_TRANSITION
  | .completeNotInProgress => .INVALID_STATUS_TRANSITION
  | .insufficientPermissions => .INSUFFICIENT_PERMISSIONS
  | .teamAccessDenied => .TEAM_ACCESS_DENIED

/-- User row: id, role, optional team reference.  The role column is a
non-nullable enum in the schema. -/
structure User where
  id : Nat
  role : Role
  teamId : Option Nat
deriving DecidableEq, Repr

/-- Team row (only the id is relevant to the embedded operations). -/
structure Team where
  id : Nat
deriving DecidableEq, Repr

/-- Equipment row: identifying attributes, owning team, one-way scrap flag. -/
structure Equipment where
  id : Nat
  name : String
  serialNumber : String
  isScrapped : Bool
  teamId : Nat
deriving DecidableEq, Repr

/-- MaintenanceRequest row.  scheduledDate is an epoch-millisecond timestamp;
durationHours is set only on completion. -/
structure MaintenanceRequest where
  id : Nat
  subject : String
  description : String
  type : MType
  status : MStatus
  equipmentId : Nat
  teamId : Nat
  assignedTo : Option Nat
  scheduledDate : Option Int
  durationHours : Option Int
  createdBy : Nat
deriving DecidableEq, Repr

/-- RequestLog row: oldStatus is null exactly for the initial creation entry. -/
structure RequestLog where
  requestId : Nat
  oldStatus : Option MStatus
  newStatus : MStatus
  changedBy : Nat
deriving DecidableEq, Repr

/-- The transactional entity store.  nextRequestId models the autoincrement
id sequence of the maintenanceRequest table. -/
structure Store where
  users : List User
  teams : List Team
  equipments : List Equipment
  requests : List MaintenanceRequest
  logs : List RequestLog
  nextRequestId : Nat
deriving DecidableEq, Repr

/-- prisma.user.findUnique on the id column. -/
def findUser (s : Store) (userId : Nat) : Option User :=
  s.users.find? (fun u => u.id == userId)

/-- prisma.team.findUnique on the id column. -/
def findTeam (s : Store) (teamId : Nat) : Option Team :=
  s.teams.find? (fun t => t.id == teamId)

/-- prisma.equipment.findUnique on the id column. -/
def findEquipment (s : Store) (equipmentId : Nat) : Option Equipment :=
  s.equipments.find? (fun e => e.id == equipmentId)

/-- prisma.equipment.findUnique on the unique serialNumber column. -/
def findEquipmentBySerial (s : Store) (serial : String) : Option Equipment :=
  s.equipments.find? (fun e => e.serialNumber == serial)

/-- prisma.maintenanceRequest.findUnique on the id column. -/
def findRequest (s : Store) (requestId : Nat) : Option MaintenanceRequest :=
  s.requests.find? (fun r => r.id == requestId)

/-- prisma.maintenanceRequest.update where id = requestId. -/
def updateRequestInStore (s : Store) (requestId : Nat)
    (f : MaintenanceRequest → MaintenanceRequest) : Store :=
  { s with requests := s.requests.map (fun r => if r.id == requestId then f r else r) }

/-- prisma.equipment.update where id = equipmentId. -/
def updateEquipmentInStore (s : Store) (equipmentId : Nat)
    (f : Equipment → Equipment) : Store :=
  { s with equipments := s.equipments.map (fun e => if e.id == equipmentId then f e else e) }

/-- LogService.createLogEntry: prisma.requestLog.create appends one immutable
row with the given requestId, oldStatus, newStatus and changedBy. -/
def createLogEntry (s : Store) (entry : RequestLog) : Store :=
  { s with logs := s.logs ++ [entry] }

/-- The validTransitions table of RequestService.validateStatusTransition:
NEW allows IN_PROGRESS and SCRAP, IN_PROGRESS allows REPAIRED and SCRAP,
REPAIRED and SCRAP are terminal with no outgoing transitions. -/
def validTransitions : MStatus → List MStatus
  | .NEW => [.IN_PROGRESS, .SCRAP]
  | .IN_PROGRESS => [.REPAIRED, .SCRAP]
  | .REPAIRED => []
  | .SCRAP => []

/-- RequestService.validateStatusTransition: throws INVALID_STATUS_TRANSITION
naming the attempted pair unless newStatus is listed for currentStatus. -/
def validateStatusTransition (currentStatus newStatus : MStatus) :
    Except ServiceError Unit :=
  if (validTransitions currentStatus).contains newStatus then .ok ()
  else .error (.invalidStatusTransition currentStatus newStatus)

/-- The two-year window used by validatePreventiveMaintenanceScheduling:
2 * 365 * 24 * 60 * 60 * 1000 milliseconds, exactly as the source computes
its maxFutureDate from Date.now. -/
def twoYearsMs : Int := 2 * 365 * 24 * 60 * 60 * 1000

/-- One day in milliseconds, for stating the scheduling boundary. -/
def oneDayMs : Int := 24 * 60 * 60 * 1000

/-- RequestService.validatePreventiveMaintenanceScheduling.  now is the
current time in epoch milliseconds; startOfToday is the midnight preceding
now (the source computes it as new Date(year, month, day) from now, so
startOfToday is at most now).  PREVENTIVE requires a scheduledDate that is
not before startOfToday and not after now + twoYearsMs; CORRECTIVE rejects a
scheduledDate strictly after now. -/
def validatePreventiveMaintenanceScheduling (mtype : MType)
    (scheduledDate : Option Int) (now startOfToday : Int) :
    Except ServiceError Unit :=
  if mtype = MType.PREVENTIVE then
    match scheduledDate with
    | none => .error .validationError
    | some d =>
      if d < startOfToday then .error .validationError
      else if d > now + twoYearsMs then .error .validationError
      else .ok ()
  else
    match scheduledDate with
    | some d => if d > now then .error .validationError else .ok ()
    | none => .ok ()

/-- The named fields of the createRequest argument object. -/
structure CreateRequestData where
  subject : String
  description : String
  type : MType
  equipmentId : Nat
  scheduledDate : Option Int
  createdBy : Nat
deriving DecidableEq, Repr

/-- RequestService.createRequest up to and including the
prisma.maintenanceRequest.create call (everything before the trailing
LogService.createLogEntry call).  Returns the store as committed at that
point together with the id of the new row.  Validation order follows the
source: scheduling rule, then equipment existence and scrap flag, then
creator existence.  The new row gets teamId from the equipment, status NEW
and no assignee. -/
def createRequestCore (s : Store) (d : CreateRequestData) (now startOfToday : Int) :
    Except ServiceError (Store × Nat) :=
  match validatePreventiveMaintenanceScheduling d.type d.scheduledDate now startOfToday with
  | .error e => .error e
  | .ok _ =>
    match findEquipment s d.equipmentId with
    | none => .error .equipmentNotFound
    | some equipment =>
      if equipment.isScrapped then .error .equipmentScrapped
      else
        match findUser s d.createdBy with
        | none => .error .userNotFound
        | some _creator =>
          let rid := s.nextRequestId
          let row : MaintenanceRequest :=
            { id := rid
              subject := d.subject
              description := d.description
              type := d.type
              status := MStatus.NEW
              equipmentId := d.equipmentId
              teamId := equipment.teamId
              assignedTo := none
              scheduledDate := d.scheduledDate
              durationHours := none
              createdBy := d.createdBy }
          .ok ({ s with requests := s.requests ++ [row], nextRequestId := rid + 1 }, rid)

/-- RequestService.createRequest: the core step followed by the initial log
entry (oldStatus null, newStatus NEW, actor the creator).  In the source the
two prisma calls are separate awaited statements, each committing on its own;
the decomposition into createRequestCore and createLogEntry mirrors that
sequencing. -/
def createRequest (s : Store) (d : CreateRequestData) (now startOfToday : Int) :
    Except ServiceError Store :=
  match createRequestCore s d now startOfToday with
  | .error e => .error e
  | .ok (s₁, rid) =>
    .ok (createLogEntry s₁
      { requestId := rid, oldStatus := none, newStatus := MStatus.NEW,
        changedBy := d.createdBy })

/-- RequestService.assignRequest up to and including the
prisma.maintenanceRequest.update call.  Loads the request (REQUEST_NOT_FOUND
if absent), loads the technician (USER_NOT_FOUND if absent), rejects a
non-TECHNICIAN role with VALIDATION_ERROR and a team mismatch with
TEAM_ASSIGNMENT_MISMATCH, then sets assignedTo and status IN_PROGRESS
without consulting validateStatusTransition.  Returns the committed store
and the prior status (used by the subsequent log entry). -/
def assignRequestCore (s : Store) (requestId technicianId : Nat) :
    Except ServiceError (Store × MStatus) :=
  match findRequest s requestId with
  | none => .error .requestNotFound
  | some request =>
    match findUser s technicianId with
    | none => .error .userNotFound
    | some technician =>
      if technician.role ≠ Role.TECHNICIAN then .error .validationError
      else if technician.teamId ≠ some request.teamId then .error .teamMismatch
      else
        .ok (updateRequestInStore s requestId
              (fun r => { r with assignedTo := some technicianId,
                                 status := MStatus.IN_PROGRESS }),
             request.status)

/-- RequestService.assignRequest: the core step followed by the log entry
(oldStatus = prior status, newStatus = IN_PROGRESS, actor = assignedBy).
The assignedBy actor is never inspected by the source. -/
def assignRequest (s : Store) (requestId technicianId assignedBy : Nat) :
    Except ServiceError Store :=
  match assignRequestCore s requestId technicianId with
  | .error e => .error e
  | .ok (s₁, oldStatus) =>
    .ok (createLogEntry s₁
      { requestId := requestId, oldStatus := some oldStatus,
        newStatus := MStatus.IN_PROGRESS, changedBy := assignedBy })

/-- RequestService.updateStatus up to and including the
prisma.maintenanceRequest.update call.  Order follows the source: load
request, validate the transition table, load the acting user, role-scoped
permission checks (TECHNICIAN must be the assignee and may only target
REPAIRED or SCRAP; MANAGER must match the team; ADMIN unrestricted), then
write the new status.  Returns the committed store and the prior status.
The if/else-if chain over role strings in the source is rendered as a match
over the closed Role enum; the branches are mutually exclusive. -/
def updateStatusCore (s : Store) (requestId : Nat) (newStatus : MStatus)
    (userId : Nat) : Except ServiceError (Store × MStatus) :=
  match findRequest s requestId with
  | none => .error .requestNotFound
  | some request =>
    match validateStatusTransition request.status newStatus with
    | .error e => .error e
    | .ok _ =>
      match findUser s userId with
      | none => .error .userNotFound
      | some user =>
        match user.role with
        | Role.TECHNICIAN =>
          if request.assignedTo ≠ some userId then .error .insufficientPermissions
          else if ¬ (newStatus = MStatus.REPAIRED ∨ newStatus = MStatus.SCRAP) then
            .error .technicianTargetRestriction
          else
            .ok (updateRequestInStore s requestId (fun r => { r with status := newStatus }),
                 request.status)
        | Role.MANAGER =>
          if user.teamId ≠ some request.teamId then .error .teamAccessDenied
          else
            .ok (updateRequestInStore s requestId (fun r => { r with status := newStatus }),
                 request.status)
        | Role.ADMIN =>
          .ok (updateRequestInStore s requestId (fun r => { r with status := newStatus }),
               request.status)

/-- RequestService.updateStatus: the core step followed by the log entry.
In the source the status update and the log append are two separate awaited
prisma calls with no surrounding transaction, each committing on its own. -/
def updateStatus (s : Store) (requestId : Nat) (newStatus : MStatus)
    (userId : Nat) : Except ServiceError Store :=
  match updateStatusCore s requestId newStatus userId with
  | .error e => .error e
  | .ok (s₁, oldStatus) =>
    .ok (createLogEntry s₁
      { requestId := requestId, oldStatus := some oldStatus,
        newStatus := newStatus, changedBy := userId })

/-- RequestService.completeRequest up to and including the
prisma.maintenanceRequest.update call.  Order follows the source: load
request, require current status IN_PROGRESS (else an
INVALID_STATUS_TRANSITION-coded error), load the user, role checks
(TECHNICIAN must be the assignee, MANAGER must match the team), require
durationHours strictly positive (VALIDATION_ERROR otherwise; a zero value is
also rejected by the falsiness guard in the source), then set status
REPAIRED and persist durationHours. -/
def completeRequestCore (s : Store) (requestId : Nat) (durationHours : Int)
    (userId : Nat) : Except ServiceError (Store × MStatus) :=
  match findRequest s requestId with
  | none => .error .requestNotFound
  | some request =>
    if request.status ≠ MStatus.IN_PROGRESS then .error .completeNotInProgress
    else
      match findUser s userId with
      | none => .error .userNotFound
      | some user =>
        match user.role with
        | Role.TECHNICIAN =>
          if request.assignedTo ≠ some userId then .error .insufficientPermissions
          else if durationHours ≤ 0 then .error .validationError
          else
            .ok (updateRequestInStore s requestId
                  (fun r => { r with status := MStatus.REPAIRED,
                                     durationHours := some durationHours }),
                 request.status)
        | Role.MANAGER =>
          if user.teamId ≠ some request.teamId then .error .teamAccessDenied
          else if durationHours ≤ 0 then .error .validationError
          else
            .ok (updateRequestInStore s requestId
                  (fun r => { r with status := MStatus.REPAIRED,
                                     durationHours := some durationHours }),
                 request.status)
        | Role.ADMIN =>
          if durationHours ≤ 0 then .error .validationError
          else
            .ok (updateRequestInStore s requestId
                  (fun r => { r with status := MStatus.REPAIRED,
                                     durationHours := some durationHours }),
                 request.status)

/-- RequestService.completeRequest: the core step followed by the log entry
(oldStatus = prior status, newStatus = REPAIRED, actor = userId). -/
def completeRequest (s : Store) (requestId : Nat) (durationHours : Int)
    (userId : Nat) : Except ServiceError Store :=
  match completeRequestCore s requestId durationHours userId with
  | .error e => .error e
  | .ok (s₁, oldStatus) =>
    .ok (createLogEntry s₁
      { requestId := requestId, oldStatus := some oldStatus,
        newStatus := MStatus.REPAIRED, changedBy := userId })

/-- The prisma.transaction callback of RequestService.scrapRequest: one
atomic unit that updates the request status to SCRAP and then, only when the
equipment row fetched before the transaction had isScrapped false, sets the
isScrapped flag of the equipment referenced by the request. -/
def scrapTransaction (s : Store) (requestId equipmentId : Nat)
    (equipmentAlreadyScrapped : Bool) : Store :=
  let s₁ := updateRequestInStore s requestId
    (fun r => { r with status := MStatus.SCRAP })
  if equipmentAlreadyScrapped then s₁
  else updateEquipmentInStore s₁ equipmentId
    (fun e => { e with isScrapped := true })

/-- RequestService.scrapRequest up to and including the prisma.transaction
block.  Order follows the source: load the request together with its
equipment row (the equipment is fetched through the include; a missing row
cannot occur under the foreign-key constraint and is surfaced here as
EQUIPMENT_NOT_FOUND), load the user, role checks as in completeRequest, then
one transaction (scrapTransaction) that sets the request status to SCRAP
and, only if the equipment is not already scrapped, sets its isScrapped
flag.  The two entity writes commit or roll back together; the audit-log
append is NOT part of this transaction in the source.  Performs no
transition-table check.  The if/else-if chain over role strings in the
source is rendered as a match over the closed Role enum. -/
def scrapRequestCore (s : Store) (requestId userId : Nat) :
    Except ServiceError (Store × MStatus) :=
  match findRequest s requestId with
  | none => .error .requestNotFound
  | some request =>
    match findEquipment s request.equipmentId with
    | none => .error .equipmentNotFound
    | some equipment =>
      match findUser s userId with
      | none => .error .userNotFound
      | some user =>
        match user.role with
        | Role.TECHNICIAN =>
          if request.assignedTo ≠ some userId then .error .insufficientPermissions
          else .ok (scrapTransaction s requestId request.equipmentId equipment.isScrapped,
                    request.status)
        | Role.MANAGER =>
          if user.teamId ≠ some request.teamId then .error .teamAccessDenied
          else .ok (scrapTransaction s requestId request.equipmentId equipment.isScrapped,
                    request.status)
        | Role.ADMIN =>
          .ok (scrapTransaction s requestId request.equipmentId equipment.isScrapped,
               request.status)

/-- RequestService.scrapRequest: the transactional core step followed by the
log entry (oldStatus = prior status, newStatus = SCRAP, actor = userId),
which the source appends after the transaction has committed. -/
def scrapRequest (s : Store) (requestId userId : Nat) :
    Except ServiceError Store :=
  match scrapRequestCore s requestId userId with
  | .error e => .error e
  | .ok (s₁, oldStatus) =>
    .ok (createLogEntry s₁
      { requestId := requestId, oldStatus := some oldStatus,
        newStatus := MStatus.SCRAP, changedBy := userId })

/-- The named fields of the EquipmentService.updateEquipment update object;
none stands for an absent (undefined) field. -/
structure EquipmentUpdateData where
  name : Option String
  serialNumber : Option String
  teamId : Option Nat
deriving DecidableEq, Repr

/-- EquipmentService.updateEquipment: loads the equipment (EQUIPMENT_NOT_FOUND
if absent), rejects scrapped equipment with EQUIPMENT_SCRAPPED, checks a
changed serialNumber for uniqueness (VALIDATION_ERROR if taken), checks a
changed teamId for existence (TEAM_NOT_FOUND), then applies the provided
fields.  The isScrapped flag is not among the updatable fields.  The unused
presentation fields (department, location, purchaseDate, warrantyEnd) are
handled identically to name in the source and are omitted here. -/
def updateEquipment (s : Store) (equipmentId : Nat) (d : EquipmentUpdateData) :
    Except ServiceError Store :=
  match findEquipment s equipmentId with
  | none => .error .equipmentNotFound
  | some existing =>
    if existing.isScrapped then .error .equipmentScrapped
    else
      let serialConflict : Bool :=
        match d.serialNumber with
        | some sn => sn != existing.serialNumber && (findEquipmentBySerial s sn).isSome
        | none => false
      if serialConflict then .error .serialNumberTaken
      else
        let teamMissing : Bool :=
          match d.teamId with
          | some t => t != existing.teamId && (findTeam s t).isNone
          | none => false
        if teamMissing then .error .teamNotFound
        else
          .ok (updateEquipmentInStore s equipmentId (fun e =>
            { e with
              name := d.name.getD e.name
              serialNumber := d.serialNumber.getD e.serialNumber
              teamId := d.teamId.getD e.teamId }))

/-- authHelpers.hasRole: false for a missing user, otherwise membership of
the role in the given list.  The role column is a non-nullable enum, so the
falsy-role guard of the source cannot fire for a stored user. -/
def hasRole (user : Option User) (roles : List Role) : Bool :=
  match user with
  | none => false
  | some u => roles.contains u.role

/-- authHelpers.isAdmin. -/
def isAdmin (user : Option User) : Bool := hasRole user [Role.ADMIN]

/-- authHelpers.isManager. -/
def isManager (user : Option User) : Bool := hasRole user [Role.MANAGER]

/-- authHelpers.isTechnician. -/
def isTechnician (user : Option User) : Bool := hasRole user [Role.TECHNICIAN]

/-- authHelpers.belongsToTeam: false when the user is missing or has no team,
otherwise equality of team ids.  Database ids are positive, so the numeric
falsiness guard on the teamId argument coincides with definedness. -/
def belongsToTeam (user : Option User) (teamId : Nat) : Bool :=
  match user with
  | none => false
  | some u =>
    match u.teamId with
    | none => false
    | some t => t == teamId

/-- authHelpers.canViewRequest: ADMIN always; MANAGER on own team;
TECHNICIAN when assigned or on the same team; false when the user or the
request is missing. -/
def canViewRequest (user : Option User) (request : Option MaintenanceRequest) : Bool :=
  match user, request with
  | some u, some r =>
    if isAdmin (some u) then true
    else if isManager (some u) && belongsToTeam (some u) r.teamId then true
    else if isTechnician (some u) then
      (r.assignedTo == some u.id) || belongsToTeam (some u) r.teamId
    else false
  | _, _ => false

/-- authHelpers.canModifyRequest: ADMIN always; MANAGER on own team;
TECHNICIAN only when assigned; false when the user or the request is
missing. -/
def canModifyRequest (user : Option User) (request : Option MaintenanceRequest) : Bool :=
  match user, request with
  | some u, some r =>
    if isAdmin (some u) then true
    else if isManager (some u) && belongsToTeam (some u) r.teamId then true
    else if isTechnician (some u) && (r.assignedTo == some u.id) then true
    else false
  | _, _ => false

/-
Helper lemmas about the store operations.
-/

theorem find_map_ite {α : Type} (idOf : α → Nat) (rid : Nat) (f : α → α)
    (hf : ∀ a, idOf (f a) = idOf a) (l : List α) :
    (l.map (fun a => if idOf a == rid then f a else a)).find? (fun a => idOf a == rid)
      = (l.find? (fun a => idOf a == rid)).map f := by
  induction l with
  | nil => rfl
  | cons a l ih =>
    cases h : (idOf a == rid) with
    | true =>
      simp only [List.map_cons, if_pos h]
      rw [List.find?_cons_of_pos (p := fun x => idOf x == rid) _ (by simpa [hf] using h),
          List.find?_cons_of_pos (p := fun x => idOf x == rid) _ h]
      rfl
    | false =>
      have h' : ¬ ((idOf a == rid) = true) := by simp [h]
      simp only [List.map_cons, if_neg h']
      rw [List.find?_cons_of_neg (p := fun x => idOf x == rid) _ (by simp [h]),
          List.find?_cons_of_neg (p := fun x => idOf x == rid) _ (by simp [h])]
      exact ih

theorem findRequest_update_self (s : Store) (rid : Nat)
    (f : MaintenanceRequest → MaintenanceRequest) (hf : ∀ r, (f r).id = r.id) :
    findRequest (updateRequestInStore s rid f) rid = (findRequest s rid).map f :=
  find_map_ite MaintenanceRequest.id rid f hf s.requests

theorem findEquipment_update_self (s : Store) (eid : Nat)
    (f : Equipment → Equipment) (hf : ∀ e, (f e).id = e.id) :
    findEquipment (updateEquipmentInStore s eid f) eid = (findEquipment s eid).map f :=
  find_map_ite Equipment.id eid f hf s.equipments

theorem findEquipment_updateRequest (s : Store) (rid : Nat)
    (f : MaintenanceRequest → MaintenanceRequest) (eid : Nat) :
    findEquipment (updateRequestInStore s rid f) eid = findEquipment s eid := rfl

theorem findRequest_updateEquipment (s : Store) (eid : Nat)
    (f : Equipment → Equipment) (rid : Nat) :
    findRequest (updateEquipmentInStore s eid f) rid = findRequest s rid := rfl

theorem findUser_updateRequest (s : Store) (rid : Nat)
    (f : MaintenanceRequest → MaintenanceRequest) (uid : Nat) :
    findUser (updateRequestInStore s rid f) uid = findUser s uid := rfl

theorem findUser_updateEquipment (s : Store) (eid : Nat)
    (f : Equipment → Equipment) (uid : Nat) :
    findUser (updateEquipmentInStore s eid f) uid = findUser s uid := rfl

theorem logs_updateRequest (s : Store) (rid : Nat)
    (f : MaintenanceRequest → MaintenanceRequest) :
    (updateRequestInStore s rid f).logs = s.logs := rfl

theorem logs_updateEquipment (s : Store) (eid : Nat)
    (f : Equipment → Equipment) :
    (updateEquipmentInStore s eid f).logs = s.logs := rfl

theorem logs_createLogEntry (s : Store) (e : RequestLog) :
    (createLogEntry s e).logs = s.logs ++ [e] := rfl

theorem findRequest_createLogEntry (s : Store) (e : RequestLog) (rid : Nat) :
    findRequest (createLogEntry s e) rid = findRequest s rid := rfl

theorem findEquipment_createLogEntry (s : Store) (e : RequestLog) (eid : Nat) :
    findEquipment (createLogEntry s e) eid = findEquipment s eid := rfl

theorem findUser_createLogEntry (s : Store) (e : RequestLog) (uid : Nat) :
    findUser (createLogEntry s e) uid = findUser s uid := rfl

theorem logs_scrapTransaction (s : Store) (rid eid : Nat) (b : Bool) :
    (scrapTransaction s rid eid b).logs = s.logs := by
  cases b <;> rfl

theorem findUser_scrapTransaction (s : Store) (rid eid : Nat) (b : Bool) (uid : Nat) :
    findUser (scrapTransaction s rid eid b) uid = findUser s uid := by
  cases b <;> rfl

theorem findRequest_scrapTransaction (s : Store) (rid eid : Nat) (b : Bool) :
    findRequest (scrapTransaction s rid eid b) rid
      = (findRequest s rid).map (fun x => { x with status := MStatus.SCRAP }) := by
  cases b with
  | true => exact findRequest_update_self s rid _ (fun r => rfl)
  | false =>
    show findRequest (updateEquipmentInStore _ _ _) rid = _
    rw [findRequest_updateEquipment]
    exact findRequest_update_self s rid _ (fun r => rfl)

theorem findEquipment_scrapTransaction (s : Store) (rid eid : Nat) (b : Bool) :
    findEquipment (scrapTransaction s rid eid b) eid
      = (if b then findEquipment s eid
         else (findEquipment s eid).map (fun e => { e with isScrapped := true })) := by
  cases b with
  | true => rfl
  | false =>
    show findEquipment (updateEquipmentInStore _ _ _) eid = _
    rw [findEquipment_update_self _ eid (fun e => { e with isScrapped := true })
          (fun e => rfl),
        findEquipment_updateRequest]
    rfl

theorem updateStatusCore_ok (s : Store) (rid : Nat) (ns : MStatus) (uid : Nat)
    (s₁ : Store) (old : MStatus)
    (h : updateStatusCore s rid ns uid = .ok (s₁, old)) :
    ∃ r, findRequest s rid = some r ∧ old = r.status ∧
      ns ∈ validTransitions r.status ∧
      s₁ = updateRequestInStore s rid (fun x => { x with status := ns }) := by
  unfold updateStatusCore at h
  split at h
  · simp at h
  next r hr =>
    split at h
    next e hv => simp at h
    next a hv =>
      have hmem : ns ∈ validTransitions r.status := by
        by_contra hmem
        simp [validateStatusTransition, hmem] at hv
      split at h
      · simp at h
      next u hu =>
        refine ⟨r, hr, ?_⟩
        split at h <;> try split_ifs at h
        all_goals simp_all

theorem assignRequestCore_ok (s : Store) (rid tid : Nat)
    (s₁ : Store) (old : MStatus)
    (h : assignRequestCore s rid tid = .ok (s₁, old)) :
    ∃ r tech, findRequest s rid = some r ∧ findUser s tid = some tech ∧
      tech.role = Role.TECHNICIAN ∧ tech.teamId = some r.teamId ∧
      old = r.status ∧
      s₁ = updateRequestInStore s rid
        (fun x => { x with assignedTo := some tid, status := MStatus.IN_PROGRESS }) := by
  unfold assignRequestCore at h
  split at h
  · simp at h
  next r hr =>
    split at h
    · simp at h
    next tech ht =>
      refine ⟨r, tech, hr, ht, ?_⟩
      split_ifs at h
      all_goals simp_all

theorem completeRequestCore_ok (s : Store) (rid : Nat) (dh : Int) (uid : Nat)
    (s₁ : Store) (old : MStatus)
    (h : completeRequestCore s rid dh uid = .ok (s₁, old)) :
    ∃ r, findRequest s rid = some r ∧ r.status = MStatus.IN_PROGRESS ∧
      old = r.status ∧ 0 < dh ∧
      s₁ = updateRequestInStore s rid
        (fun x => { x with status := MStatus.REPAIRED, durationHours := some dh }) := by
  unfold completeRequestCore at h
  split at h
  · simp at h
  next r hr =>
    split at h
    next hst => simp at h
    next hst =>
      split at h
      · simp at h
      next u hu =>
        refine ⟨r, hr, by simpa using hst, ?_⟩
        split at h <;> try split_ifs at h
        all_goals simp_all

theorem scrapRequestCore_ok (s : Store) (rid uid : Nat)
    (s₁ : Store) (old : MStatus)
    (h : scrapRequestCore s rid uid = .ok (s₁, old)) :
    ∃ r equipment, findRequest s rid = some r ∧
      findEquipment s r.equipmentId = some equipment ∧
      old = r.status ∧
      s₁ = scrapTransaction s rid r.equipmentId equipment.isScrapped := by
  unfold scrapRequestCore at h
  split at h
  · simp at h
  next r hr =>
    split at h
    · simp at h
    next equipment he =>
      split at h
      · simp at h
      next u hu =>
        refine ⟨r, equipment, hr, he, ?_⟩
        split at h <;> try split_ifs at h
        all_goals simp_all

theorem createRequestCore_ok (s : Store) (d : CreateRequestData)
    (now startOfToday : Int) (s₁ : Store) (rid : Nat)
    (h : createRequestCore s d now startOfToday = .ok (s₁, rid)) :
    rid = s.nextRequestId ∧ s₁.logs = s.logs := by
  unfold createRequestCore at h
  split at h
  next e hv => simp at h
  next a hv =>
    split at h
    · simp at h
    next equipment he =>
      split_ifs at h
      split at h
      · simp at h
      next creator hu =>
        simp only [Except.ok.injEq, Prod.mk.injEq] at h
        obtain ⟨h1, h2⟩ := h
        exact ⟨h2.symm, by rw [← h1]⟩

/-
Concrete fixtures used by the closed theorems below.
-/

/-- A technician on team 1. -/
def techUser : User := { id := 2, role := Role.TECHNICIAN, teamId := some 1 }

/-- An administrator. -/
def adminUser : User := { id := 9, role := Role.ADMIN, teamId := none }

/-- A manager on team 1. -/
def managerUser : User := { id := 4, role := Role.MANAGER, teamId := some 1 }

/-- A technician on team 2 (the wrong team for pumpEquipment). -/
def otherTeamTech : User := { id := 3, role := Role.TECHNICIAN, teamId := some 2 }

/-- Active equipment owned by team 1. -/
def pumpEquipment : Equipment :=
  { id := 5, name := "pump", serialNumber := "SN-100", isScrapped := false, teamId := 1 }

/-- Already-scrapped equipment owned by team 1. -/
def scrappedEquipment : Equipment :=
  { id := 6, name := "lathe", serialNumber := "SN-200", isScrapped := true, teamId := 1 }

/-- A request in status NEW for pumpEquipment. -/
def newRequest : MaintenanceRequest :=
  { id := 1, subject := "fix pump", description := "leaking seal",
    type := MType.CORRECTIVE, status := MStatus.NEW, equipmentId := 5, teamId := 1,
    assignedTo := none, scheduledDate := none, durationHours := none, createdBy := 9 }

/-- The same request in the terminal status REPAIRED, assigned to techUser. -/
def repairedRequest : MaintenanceRequest :=
  { newRequest with status := MStatus.REPAIRED, assignedTo := some 2,
                    durationHours := some 2 }

/-- A store holding one NEW request along with its equipment and users. -/
def freshStore : Store :=
  { users := [techUser, adminUser, managerUser, otherTeamTech]
    teams := [{ id := 1 }, { id := 2 }]
    equipments := [pumpEquipment, scrappedEquipment]
    requests := [newRequest]
    logs := []
    nextRequestId := 2 }

/-- The same store with the request already in the terminal status REPAIRED. -/
def terminalStore : Store :=
  { freshStore with requests := [repairedRequest] }

/-- Closed form of scrapRequest under the preconditions that make it
succeed: the request, its equipment and the acting user exist, a TECHNICIAN
actor is the assignee and a MANAGER actor is on the team of the request. -/
theorem scrapRequest_eq (s : Store) (rid uid : Nat)
    (r : MaintenanceRequest) (e : Equipment) (u : User)
    (hr : findRequest s rid = some r)
    (he : findEquipment s r.equipmentId = some e)
    (hu : findUser s uid = some u)
    (htech : u.role = Role.TECHNICIAN → r.assignedTo = some uid)
    (hmgr : u.role = Role.MANAGER → u.teamId = some r.teamId) :
    scrapRequest s rid uid
      = .ok (createLogEntry (scrapTransaction s rid r.equipmentId e.isScrapped)
          { requestId := rid, oldStatus := some r.status,
            newStatus := MStatus.SCRAP, changedBy := uid }) := by
  unfold scrapRequest scrapRequestCore
  simp only [hr, he, hu]
  cases hrole : u.role with
  | TECHNICIAN => simp [htech hrole]
  | MANAGER => simp [hmgr hrole]
  | ADMIN => simp

/-
Claim theorems.
-/

/-- C1: the claim that no lifecycle operation changes the status of a
request in a terminal status (REPAIRED or SCRAP), and in particular that
assign on such a request must fail the transition-table check, is violated
by the code.  On a store whose only request is in status REPAIRED,
updateStatus and completeRequest do fail without writing, but assignRequest
succeeds and overwrites the status to IN_PROGRESS, and scrapRequest succeeds
and overwrites it to SCRAP: neither consults validateStatusTransition. -/
theorem claim_C1_terminal_not_preserved :
    (findRequest terminalStore 1).map MaintenanceRequest.status
      = some MStatus.REPAIRED ∧
    (assignRequest terminalStore 1 2 9).toOption.map
        (fun s => (findRequest s 1).map MaintenanceRequest.status)
      = some (some MStatus.IN_PROGRESS) ∧
    (scrapRequest terminalStore 1 9).toOption.map
        (fun s => (findRequest s 1).map MaintenanceRequest.status)
      = some (some MStatus.SCRAP) ∧
    updateStatus terminalStore 1 MStatus.IN_PROGRESS 9
      = .error (.invalidStatusTransition MStatus.REPAIRED MStatus.IN_PROGRESS) ∧
    completeRequest terminalStore 1 2 9 = .error .completeNotInProgress :=
  ⟨rfl, rfl, rfl, rfl, rfl⟩

/-- C2: the claim that the audit-log append runs in the same atomic
transaction as the status-changing write is violated by the code.  The
embedded core functions are exactly the source operations truncated after
their last status-changing write, which in the source has already committed
(each prisma call outside the transaction block commits individually, and
the transaction block of scrapRequest ends before the log call).  At that
commit point the new status is durably stored while the log list is still
empty, so a failing log write leaves the status changed with no log row. -/
theorem claim_C2_log_outside_transaction :
    (updateStatusCore freshStore 1 MStatus.IN_PROGRESS 9).toOption.map
        (fun p => (p.1.logs, (findRequest p.1 1).map MaintenanceRequest.status))
      = some ([], some MStatus.IN_PROGRESS) ∧
    (scrapRequestCore freshStore 1 9).toOption.map
        (fun p => (p.1.logs, (findRequest p.1 1).map MaintenanceRequest.status))
      = some ([], some MStatus.SCRAP) :=
  ⟨rfl, rfl⟩

/-- C3: updateStatus performs the change exactly for pairs of the transition
table.  First conjunct: validateStatusTransition accepts a pair exactly when
it is one of NEW to IN_PROGRESS, NEW to SCRAP, IN_PROGRESS to REPAIRED,
IN_PROGRESS to SCRAP.  Second conjunct: for a pair outside the table (which
covers every pair out of REPAIRED or SCRAP and every reflexive pair)
updateStatus fails with the INVALID_STATUS_TRANSITION error naming the
attempted pair, whatever the acting user.  Third conjunct: whenever
updateStatus succeeds, the pair was in the table and the stored status
afterwards is the requested one. -/
theorem claim_C3_transition_table :
    (∀ a b, validateStatusTransition a b = .ok () ↔
      ((a = MStatus.NEW ∧ b = MStatus.IN_PROGRESS) ∨
       (a = MStatus.NEW ∧ b = MStatus.SCRAP) ∨
       (a = MStatus.IN_PROGRESS ∧ b = MStatus.REPAIRED) ∨
       (a = MStatus.IN_PROGRESS ∧ b = MStatus.SCRAP))) ∧
    (∀ s rid ns uid r, findRequest s rid = some r →
      ns ∉ validTransitions r.status →
      updateStatus s rid ns uid = .error (.invalidStatusTransition r.status ns)) ∧
    (∀ s rid ns uid s₁, updateStatus s rid ns uid = .ok s₁ →
      ∃ r, findRequest s rid = some r ∧ ns ∈ validTransitions r.status ∧
        (findRequest s₁ rid).map MaintenanceRequest.status = some ns) := by
  refine ⟨fun a b => by
    cases a <;> cases b <;> simp [validateStatusTransition, validTransitions], ?_, ?_⟩
  · intro s rid ns uid r hr hmem
    unfold updateStatus updateStatusCore
    simp [hr, validateStatusTransition, hmem]
  · intro s rid ns uid s₁ h
    unfold updateStatus at h
    cases hc : updateStatusCore s rid ns uid with
    | error e => rw [hc] at h; simp at h
    | ok p =>
      rw [hc] at h
      obtain ⟨r, hr, -, hmem, hs⟩ := updateStatusCore_ok s rid ns uid p.1 p.2 (by rw [hc])
      refine ⟨r, hr, hmem, ?_⟩
      have hs₁ : s₁ = createLogEntry p.1
          { requestId := rid, oldStatus := some p.2,
            newStatus := ns, changedBy := uid } := by
        simpa using h.symm
      rw [hs₁, findRequest_createLogEntry, hs,
          findRequest_update_self s rid (fun x => { x with status := ns })
            (fun x => rfl),
          hr]
      rfl

/-- C3 witness: on the concrete freshStore (request 1 in status NEW) the
out-of-table target REPAIRED is rejected naming the pair NEW to REPAIRED. -/
theorem claim_C3_witness :
    updateStatus freshStore 1 MStatus.REPAIRED 9
      = .error (.invalidStatusTransition MStatus.NEW MStatus.REPAIRED) :=
  claim_C3_transition_table.2.1 freshStore 1 MStatus.REPAIRED 9 newRequest rfl
    (by decide)

/-- C4: every successful state-changing operation appends exactly one
RequestLog row, whose oldStatus is the status before the operation, whose
newStatus is the status after it, and whose changedBy is the acting user;
for createRequest the single appended row has oldStatus null and newStatus
NEW with the creator as actor. -/
theorem claim_C4_audit_completeness :
    (∀ s d now sot s₁, createRequest s d now sot = .ok s₁ →
      s₁.logs = s.logs ++ [{ requestId := s.nextRequestId, oldStatus := none,
                             newStatus := MStatus.NEW, changedBy := d.createdBy }]) ∧
    (∀ s rid tid aid s₁, assignRequest s rid tid aid = .ok s₁ →
      ∃ r, findRequest s rid = some r ∧
        s₁.logs = s.logs ++ [{ requestId := rid, oldStatus := some r.status,
                               newStatus := MStatus.IN_PROGRESS, changedBy := aid }] ∧
        (findRequest s₁ rid).map MaintenanceRequest.status
          = some MStatus.IN_PROGRESS) ∧
    (∀ s rid ns uid s₁, updateStatus s rid ns uid = .ok s₁ →
      ∃ r, findRequest s rid = some r ∧
        s₁.logs = s.logs ++ [{ requestId := rid, oldStatus := some r.status,
                               newStatus := ns, changedBy := uid }] ∧
        (findRequest s₁ rid).map MaintenanceRequest.status = some ns) ∧
    (∀ s rid dh uid s₁, completeRequest s rid dh uid = .ok s₁ →
      ∃ r, findRequest s rid = some r ∧
        s₁.logs = s.logs ++ [{ requestId := rid, oldStatus := some r.status,
                               newStatus := MStatus.REPAIRED, changedBy := uid }] ∧
        (findRequest s₁ rid).map MaintenanceRequest.status
          = some MStatus.REPAIRED) ∧
    (∀ s rid uid s₁, scrapRequest s rid uid = .ok s₁ →
      ∃ r, findRequest s rid = some r ∧
        s₁.logs = s.logs ++ [{ requestId := rid, oldStatus := some r.status,
                               newStatus := MStatus.SCRAP, changedBy := uid }] ∧
        (findRequest s₁ rid).map MaintenanceRequest.status
          = some MStatus.SCRAP) := by
  refine ⟨?_, ?_, ?_, ?_, ?_⟩
  · intro s d now sot s₁ h
    unfold createRequest at h
    cases hc : createRequestCore s d now sot with
    | error e => rw [hc] at h; simp at h
    | ok p =>
      rw [hc] at h
      obtain ⟨hrid, hlogs⟩ := createRequestCore_ok s d now sot p.1 p.2 (by rw [hc])
      have hs₁ : s₁ = createLogEntry p.1
          { requestId := p.2, oldStatus := none, newStatus := MStatus.NEW,
            changedBy := d.createdBy } := by simpa using h.symm
      rw [hs₁, logs_createLogEntry, hlogs, hrid]
  · intro s rid tid aid s₁ h
    unfold assignRequest at h
    cases hc : assignRequestCore s rid tid with
    | error e => rw [hc] at h; simp at h
    | ok p =>
      rw [hc] at h
      obtain ⟨r, tech, hr, ht, hrole, hteam, hold, hs⟩ :=
        assignRequestCore_ok s rid tid p.1 p.2 (by rw [hc])
      have hs₁ : s₁ = createLogEntry p.1
          { requestId := rid, oldStatus := some p.2,
            newStatus := MStatus.IN_PROGRESS, changedBy := aid } := by
        simpa using h.symm
      refine ⟨r, hr, ?_, ?_⟩
      · rw [hs₁, logs_createLogEntry, hs, logs_updateRequest, hold]
      · rw [hs₁, findRequest_createLogEntry, hs,
            findRequest_update_self s rid
              (fun x => { x with assignedTo := some tid,
                                 status := MStatus.IN_PROGRESS })
              (fun x => rfl),
            hr]
        rfl
  · intro s rid ns uid s₁ h
    unfold updateStatus at h
    cases hc : updateStatusCore s rid ns uid with
    | error e => rw [hc] at h; simp at h
    | ok p =>
      rw [hc] at h
      obtain ⟨r, hr, hold, hmem, hs⟩ :=
        updateStatusCore_ok s rid ns uid p.1 p.2 (by rw [hc])
      have hs₁ : s₁ = createLogEntry p.1
          { requestId := rid, oldStatus := some p.2,
            newStatus := ns, changedBy := uid } := by simpa using h.symm
      refine ⟨r, hr, ?_, ?_⟩
      · rw [hs₁, logs_createLogEntry, hs, logs_updateRequest, hold]
      · rw [hs₁, findRequest_createLogEntry, hs,
            findRequest_update_self s rid (fun x => { x with status := ns })
              (fun x => rfl),
            hr]
        rfl
  · intro s rid dh uid s₁ h
    unfold completeRequest at h
    cases hc : completeRequestCore s rid dh uid with
    | error e => rw [hc] at h; simp at h
    | ok p =>
      rw [hc] at h
      obtain ⟨r, hr, hst, hold, hdh, hs⟩ :=
        completeRequestCore_ok s rid dh uid p.1 p.2 (by rw [hc])
      have hs₁ : s₁ = createLogEntry p.1
          { requestId := rid, oldStatus := some p.2,
            newStatus := MStatus.REPAIRED, changedBy := uid } := by
        simpa using h.symm
      refine ⟨r, hr, ?_, ?_⟩
      · rw [hs₁, logs_createLogEntry, hs, logs_updateRequest, hold]
      · rw [hs₁, findRequest_createLogEntry, hs,
            findRequest_update_self s rid
              (fun x => { x with status := MStatus.REPAIRED,
                                 durationHours := some dh })
              (fun x => rfl),
            hr]
        rfl
  · intro s rid uid s₁ h
    unfold scrapRequest at h
    cases hc : scrapRequestCore s rid uid with
    | error e => rw [hc] at h; simp at h
    | ok p =>
      rw [hc] at h
      obtain ⟨r, e, hr, he, hold, hs⟩ :=
        scrapRequestCore_ok s rid uid p.1 p.2 (by rw [hc])
      have hs₁ : s₁ = createLogEntry p.1
          { requestId := rid, oldStatus := some p.2,
            newStatus := MStatus.SCRAP, changedBy := uid } := by
        simpa using h.symm
      refine ⟨r, hr, ?_, ?_⟩
      · rw [hs₁, logs_createLogEntry, hs, logs_scrapTransaction, hold]
      · rw [hs₁, findRequest_createLogEntry, hs, findRequest_scrapTransaction, hr]
        rfl

/-- A concrete CORRECTIVE create payload for the C4 witness. -/
def routineCreateData : CreateRequestData :=
  { subject := "grease", description := "routine lubrication",
    type := MType.CORRECTIVE, equipmentId := 5, scheduledDate := none,
    createdBy := 9 }

/-- A request in IN_PROGRESS assigned to techUser. -/
def inProgressRequest : MaintenanceRequest :=
  { newRequest with status := MStatus.IN_PROGRESS, assignedTo := some 2 }

/-- A store whose request is IN_PROGRESS and assigned to techUser. -/
def busyStore : Store := { freshStore with requests := [inProgressRequest] }

/-- C4 witness: the five operations applied to concrete stores each append
exactly the expected log row. -/
theorem claim_C4_witness :
    (∃ s₁, createRequest freshStore routineCreateData 0 0 = .ok s₁ ∧
      s₁.logs = freshStore.logs ++
        [{ requestId := freshStore.nextRequestId, oldStatus := none,
           newStatus := MStatus.NEW, changedBy := routineCreateData.createdBy }]) ∧
    (∃ s₁ r, assignRequest freshStore 1 2 4 = .ok s₁ ∧
      findRequest freshStore 1 = some r ∧
      s₁.logs = freshStore.logs ++
        [{ requestId := 1, oldStatus := some r.status,
           newStatus := MStatus.IN_PROGRESS, changedBy := 4 }]) ∧
    (∃ s₁ r, updateStatus freshStore 1 MStatus.IN_PROGRESS 9 = .ok s₁ ∧
      findRequest freshStore 1 = some r ∧
      s₁.logs = freshStore.logs ++
        [{ requestId := 1, oldStatus := some r.status,
           newStatus := MStatus.IN_PROGRESS, changedBy := 9 }]) ∧
    (∃ s₁ r, completeRequest busyStore 1 2 2 = .ok s₁ ∧
      findRequest busyStore 1 = some r ∧
      s₁.logs = busyStore.logs ++
        [{ requestId := 1, oldStatus := some r.status,
           newStatus := MStatus.REPAIRED, changedBy := 2 }]) ∧
    (∃ s₁ r, scrapRequest busyStore 1 4 = .ok s₁ ∧
      findRequest busyStore 1 = some r ∧
      s₁.logs = busyStore.logs ++
        [{ requestId := 1, oldStatus := some r.status,
           newStatus := MStatus.SCRAP, changedBy := 4 }]) := by
  refine ⟨?_, ?_, ?_, ?_, ?_⟩
  · exact ⟨_, rfl,
      claim_C4_audit_completeness.1 freshStore routineCreateData 0 0 _ rfl⟩
  · obtain ⟨r, hr, hlogs, -⟩ :=
      claim_C4_audit_completeness.2.1 freshStore 1 2 4 _ rfl
    exact ⟨_, r, rfl, hr, hlogs⟩
  · obtain ⟨r, hr, hlogs, -⟩ :=
      claim_C4_audit_completeness.2.2.1 freshStore 1 MStatus.IN_PROGRESS 9 _ rfl
    exact ⟨_, r, rfl, hr, hlogs⟩
  · obtain ⟨r, hr, hlogs, -⟩ :=
      claim_C4_audit_completeness.2.2.2.1 busyStore 1 2 2 _ rfl
    exact ⟨_, r, rfl, hr, hlogs⟩
  · obtain ⟨r, hr, hlogs, -⟩ :=
      claim_C4_audit_completeness.2.2.2.2 busyStore 1 4 _ rfl
    exact ⟨_, r, rfl, hr, hlogs⟩

theorem validatePMS_preventive_some (d now sot : Int) :
    validatePreventiveMaintenanceScheduling MType.PREVENTIVE (some d) now sot
      = (if d < sot then .error .validationError
         else if d > now + twoYearsMs then .error .validationError
         else .ok ()) := rfl

theorem validatePMS_corrective_some (d now sot : Int) :
    validatePreventiveMaintenanceScheduling MType.CORRECTIVE (some d) now sot
      = (if d > now then .error .validationError else .ok ()) := rfl

/-- C5: the scheduling rule enforced at creation.  With now the current
instant and sot the midnight before it (sot is at most now): a PREVENTIVE
request without scheduledDate fails with the VALIDATION_ERROR code; a
PREVENTIVE scheduledDate of exactly now plus the two-year window succeeds;
any scheduledDate beyond that window fails (in particular one day beyond);
a PREVENTIVE scheduledDate before the start of today fails; a CORRECTIVE
scheduledDate after now fails; and createRequest propagates every scheduling
failure unchanged.  The two-year window is the 2 x 365 days the source
computes from Date.now. -/
theorem claim_C5_scheduling_rule :
    (∀ now sot : Int,
      validatePreventiveMaintenanceScheduling MType.PREVENTIVE none now sot
        = .error .validationError) ∧
    (∀ now sot : Int, sot ≤ now →
      validatePreventiveMaintenanceScheduling MType.PREVENTIVE
          (some (now + twoYearsMs)) now sot = .ok ()) ∧
    (∀ now sot d : Int, now + twoYearsMs < d →
      validatePreventiveMaintenanceScheduling MType.PREVENTIVE (some d) now sot
        = .error .validationError) ∧
    (∀ now sot d : Int, d < sot →
      validatePreventiveMaintenanceScheduling MType.PREVENTIVE (some d) now sot
        = .error .validationError) ∧
    (∀ now sot d : Int, now < d →
      validatePreventiveMaintenanceScheduling MType.CORRECTIVE (some d) now sot
        = .error .validationError) ∧
    (∀ s d now sot e,
      validatePreventiveMaintenanceScheduling d.type d.scheduledDate now sot
        = .error e →
      createRequest s d now sot = .error e) := by
  refine ⟨fun now sot => rfl, ?_, ?_, ?_, ?_, ?_⟩
  · intro now sot hle
    rw [validatePMS_preventive_some]
    rw [if_neg (by unfold twoYearsMs; omega), if_neg (by omega)]
  · intro now sot d hd
    rw [validatePMS_preventive_some]
    by_cases h1 : d < sot
    · rw [if_pos h1]
    · rw [if_neg h1, if_pos hd]
  · intro now sot d hd
    rw [validatePMS_preventive_some, if_pos hd]
  · intro now sot d hd
    rw [validatePMS_corrective_some, if_pos hd]
  · intro s d now sot e hv
    unfold createRequest createRequestCore
    rw [hv]

/-- The C5 witness create payload: PREVENTIVE with no scheduledDate. -/
def preventiveNoDateData : CreateRequestData :=
  { routineCreateData with type := MType.PREVENTIVE }

/-- C5 witness: the scheduling boundary evaluated at now = 0 with the start
of the day also 0: exactly two years ahead is accepted, one day beyond is
rejected, a date before today is rejected, a future CORRECTIVE date is
rejected, and createRequest rejects a PREVENTIVE payload with no date. -/
theorem claim_C5_witness :
    validatePreventiveMaintenanceScheduling MType.PREVENTIVE
        (some (0 + twoYearsMs)) 0 0 = .ok () ∧
    validatePreventiveMaintenanceScheduling MType.PREVENTIVE
        (some (0 + twoYearsMs + oneDayMs)) 0 0 = .error .validationError ∧
    validatePreventiveMaintenanceScheduling MType.PREVENTIVE
        (some (-1)) 0 0 = .error .validationError ∧
    validatePreventiveMaintenanceScheduling MType.CORRECTIVE
        (some 1) 0 0 = .error .validationError ∧
    createRequest freshStore preventiveNoDateData 0 0 = .error .validationError :=
  ⟨claim_C5_scheduling_rule.2.1 0 0 le_rfl,
   claim_C5_scheduling_rule.2.2.1 0 0 (0 + twoYearsMs + oneDayMs)
     (by unfold twoYearsMs oneDayMs; omega),
   claim_C5_scheduling_rule.2.2.2.1 0 0 (-1) (by omega),
   claim_C5_scheduling_rule.2.2.2.2.1 0 0 1 (by omega),
   claim_C5_scheduling_rule.2.2.2.2.2 freshStore preventiveNoDateData 0 0
     .validationError rfl⟩

/-- C6: when scrapRequest succeeds on a request whose equipment exists, the
equipment is scrapped after the operation commits (the status write and the
cascade happen inside the one scrapTransaction); calling scrapRequest again
on the same request succeeds rather than erroring, and leaves both the
request row and the equipment row exactly as the first call left them
(idempotent no-op on the entity state), so the cascade never errors when the
equipment is already scrapped.  The preconditions are the ones the source
requires for success: the request, its equipment and the actor exist, a
TECHNICIAN actor is the assignee, a MANAGER actor is on the team of the
request. -/
theorem claim_C6_scrap_cascade_idempotent (s : Store) (rid uid : Nat)
    (r : MaintenanceRequest) (e : Equipment) (u : User)
    (hr : findRequest s rid = some r)
    (he : findEquipment s r.equipmentId = some e)
    (hu : findUser s uid = some u)
    (htech : u.role = Role.TECHNICIAN → r.assignedTo = some uid)
    (hmgr : u.role = Role.MANAGER → u.teamId = some r.teamId) :
    ∃ s₁ s₂, scrapRequest s rid uid = .ok s₁ ∧
      (findRequest s₁ rid).map MaintenanceRequest.status = some MStatus.SCRAP ∧
      (findEquipment s₁ r.equipmentId).map Equipment.isScrapped = some true ∧
      scrapRequest s₁ rid uid = .ok s₂ ∧
      findRequest s₂ rid = findRequest s₁ rid ∧
      findEquipment s₂ r.equipmentId = findEquipment s₁ r.equipmentId := by
  have h1 := scrapRequest_eq s rid uid r e u hr he hu htech hmgr
  set entry₁ : RequestLog :=
    { requestId := rid, oldStatus := some r.status,
      newStatus := MStatus.SCRAP, changedBy := uid } with hentry₁
  set s₁ : Store :=
    createLogEntry (scrapTransaction s rid r.equipmentId e.isScrapped) entry₁
    with hs₁
  have hr₁ : findRequest s₁ rid = some { r with status := MStatus.SCRAP } := by
    rw [hs₁, findRequest_createLogEntry, findRequest_scrapTransaction, hr]
    rfl
  have he₁ : findEquipment s₁ r.equipmentId
      = some (if e.isScrapped then e else { e with isScrapped := true }) := by
    rw [hs₁, findEquipment_createLogEntry, findEquipment_scrapTransaction]
    cases hscr : e.isScrapped
    · rw [if_neg (by simp), if_neg (by simp), he]
      rfl
    · rw [if_pos rfl, if_pos rfl, he]
  have he₁scr : (if e.isScrapped then e else { e with isScrapped := true }).isScrapped
      = true := by
    cases hscr : e.isScrapped <;> simp [hscr]
  have hu₁ : findUser s₁ uid = some u := by
    rw [hs₁, findUser_createLogEntry, findUser_scrapTransaction, hu]
  have h2 := scrapRequest_eq s₁ rid uid { r with status := MStatus.SCRAP }
    (if e.isScrapped then e else { e with isScrapped := true }) u hr₁ he₁ hu₁
    (fun hrole => htech hrole) (fun hrole => hmgr hrole)
  refine ⟨s₁, _, h1, ?_, ?_, h2, ?_, ?_⟩
  · rw [hr₁]
    rfl
  · rw [he₁]
    simp [he₁scr]
  · rw [findRequest_createLogEntry, findRequest_scrapTransaction, hr₁]
    rfl
  · rw [findEquipment_createLogEntry, findEquipment_scrapTransaction, he₁scr,
        if_pos rfl]

/-- C6 witness: an administrator scraps the NEW request of freshStore; the
equipment cascade fires and the repeated call is accepted without changing
the request or equipment rows again. -/
theorem claim_C6_witness :
    ∃ s₁ s₂, scrapRequest freshStore 1 9 = .ok s₁ ∧
      (findRequest s₁ 1).map MaintenanceRequest.status = some MStatus.SCRAP ∧
      (findEquipment s₁ newRequest.equipmentId).map Equipment.isScrapped
        = some true ∧
      scrapRequest s₁ 1 9 = .ok s₂ ∧
      findRequest s₂ 1 = findRequest s₁ 1 ∧
      findEquipment s₂ newRequest.equipmentId
        = findEquipment s₁ newRequest.equipmentId :=
  claim_C6_scrap_cascade_idempotent freshStore 1 9 newRequest pumpEquipment
    adminUser rfl rfl rfl (by decide) (by decide)

/-- C7: the error behaviour of assignRequest.  A missing request fails with
the not-found code for requests; a missing technician fails with the
not-found code for users; a named user whose role is not TECHNICIAN fails
with the VALIDATION_ERROR code; a technician on a different team than the
request fails with the TEAM_ASSIGNMENT_MISMATCH code.  The acting user aid
is universally quantified in every conjunct: the source never consults it,
so each failure happens regardless of the actor. -/
theorem claim_C7_assign_errors :
    (∀ s rid tid aid, findRequest s rid = none →
      assignRequest s rid tid aid = .error .requestNotFound) ∧
    (∀ s rid tid aid r, findRequest s rid = some r → findUser s tid = none →
      assignRequest s rid tid aid = .error .userNotFound) ∧
    (∀ s rid tid aid r tech, findRequest s rid = some r →
      findUser s tid = some tech → tech.role ≠ Role.TECHNICIAN →
      assignRequest s rid tid aid = .error .validationError) ∧
    (∀ s rid tid aid r tech, findRequest s rid = some r →
      findUser s tid = some tech → tech.role = Role.TECHNICIAN →
      tech.teamId ≠ some r.teamId →
      assignRequest s rid tid aid = .error .teamMismatch) := by
  refine ⟨?_, ?_, ?_, ?_⟩
  · intro s rid tid aid h
    simp [assignRequest, assignRequestCore, h]
  · intro s rid tid aid r hr ht
    simp [assignRequest, assignRequestCore, hr, ht]
  · intro s rid tid aid r tech hr ht hrole
    simp [assignRequest, assignRequestCore, hr, ht, hrole]
  · intro s rid tid aid r tech hr ht hrole hteam
    simp [assignRequest, assignRequestCore, hr, ht, hrole, hteam]

/-- C7 witness: the four failures on concrete stores — unknown request id
42, unknown user id 77, managerUser (id 4) as assignee target, and
otherTeamTech (team 2) against the team-1 request. -/
theorem claim_C7_witness :
    assignRequest freshStore 42 2 9 = .error .requestNotFound ∧
    assignRequest freshStore 1 77 9 = .error .userNotFound ∧
    assignRequest freshStore 1 4 9 = .error .validationError ∧
    assignRequest freshStore 1 3 9 = .error .teamMismatch :=
  ⟨claim_C7_assign_errors.1 freshStore 42 2 9 rfl,
   claim_C7_assign_errors.2.1 freshStore 1 77 9 newRequest rfl rfl,
   claim_C7_assign_errors.2.2.1 freshStore 1 4 9 newRequest managerUser rfl rfl
     (by decide),
   claim_C7_assign_errors.2.2.2 freshStore 1 3 9 newRequest otherTeamTech rfl rfl
     rfl (by decide)⟩

/-- C8: the scrapped-equipment guard.  createRequest against a missing
equipment id fails with the not-found code, and against scrapped equipment
fails with the EQUIPMENT_SCRAPPED code (given the scheduling validation that
the source runs first passes); updateEquipment on scrapped equipment fails
with the EQUIPMENT_SCRAPPED code for every update payload, so scrapped
equipment is permanently excluded from new requests and from field
updates. -/
theorem claim_C8_scrapped_equipment_guard :
    (∀ s d now sot,
      validatePreventiveMaintenanceScheduling d.type d.scheduledDate now sot
        = .ok () →
      findEquipment s d.equipmentId = none →
      createRequest s d now sot = .error .equipmentNotFound) ∧
    (∀ s d now sot e,
      validatePreventiveMaintenanceScheduling d.type d.scheduledDate now sot
        = .ok () →
      findEquipment s d.equipmentId = some e → e.isScrapped = true →
      createRequest s d now sot = .error .equipmentScrapped) ∧
    (∀ s eid d e, findEquipment s eid = some e → e.isScrapped = true →
      updateEquipment s eid d = .error .equipmentScrapped) := by
  refine ⟨?_, ?_, ?_⟩
  · intro s d now sot hv he
    simp [createRequest, createRequestCore, hv, he]
  · intro s d now sot e hv he hscr
    simp [createRequest, createRequestCore, hv, he, hscr]
  · intro s eid d e he hscr
    simp [updateEquipment, he, hscr]

/-- C8 witness: creating against the unknown equipment id 99 and against the
scrapped equipment id 6, and updating the scrapped equipment id 6. -/
theorem claim_C8_witness :
    createRequest freshStore { routineCreateData with equipmentId := 99 } 0 0
      = .error .equipmentNotFound ∧
    createRequest freshStore { routineCreateData with equipmentId := 6 } 0 0
      = .error .equipmentScrapped ∧
    updateEquipment freshStore 6 { name := none, serialNumber := none, teamId := none }
      = .error .equipmentScrapped :=
  ⟨claim_C8_scrapped_equipment_guard.1 freshStore
     { routineCreateData with equipmentId := 99 } 0 0 rfl rfl,
   claim_C8_scrapped_equipment_guard.2.1 freshStore
     { routineCreateData with equipmentId := 6 } 0 0 scrappedEquipment rfl rfl rfl,
   claim_C8_scrapped_equipment_guard.2.2 freshStore 6
     { name := none, serialNumber := none, teamId := none } scrappedEquipment
     rfl rfl⟩

/-- C9: exact characterisation of canModifyRequest.  For present actor and
request it is true exactly when the actor is ADMIN, or a MANAGER whose
teamId equals the teamId of the request, or a TECHNICIAN to whom the request
is assigned; for a TECHNICIAN, team membership alone never grants
modification although it does grant viewing; and both predicates fail closed
when the actor or the request is missing. -/
theorem claim_C9_modify_policy :
    (∀ (u : User) (r : MaintenanceRequest),
      canModifyRequest (some u) (some r) = true ↔
        (u.role = Role.ADMIN ∨
         (u.role = Role.MANAGER ∧ u.teamId = some r.teamId) ∨
         (u.role = Role.TECHNICIAN ∧ r.assignedTo = some u.id))) ∧
    (∀ (u : User) (r : MaintenanceRequest), u.role = Role.TECHNICIAN →
      u.teamId = some r.teamId → r.assignedTo ≠ some u.id →
      canModifyRequest (some u) (some r) = false ∧
      canViewRequest (some u) (some r) = true) ∧
    (∀ orr, canModifyRequest none orr = false) ∧
    (∀ ou, canModifyRequest ou none = false) ∧
    (∀ orr, canViewRequest none orr = false) ∧
    (∀ ou, canViewRequest ou none = false) := by
  refine ⟨?_, ?_, ?_, ?_, ?_, ?_⟩
  · intro u r
    obtain ⟨uid, urole, uteam⟩ := u
    cases urole <;> cases uteam <;>
      simp [canModifyRequest, isAdmin, isManager, isTechnician, hasRole,
            belongsToTeam]
  · intro u r hrole hteam hassign
    obtain ⟨uid, urole, uteam⟩ := u
    simp only at hrole hteam hassign
    subst hrole
    subst hteam
    constructor <;>
      simp [canModifyRequest, canViewRequest, isAdmin, isManager, isTechnician,
            hasRole, belongsToTeam, hassign]
  · intro orr
    cases orr <;> rfl
  · intro ou
    cases ou <;> rfl
  · intro orr
    cases orr <;> rfl
  · intro ou
    cases ou <;> rfl

/-- C9 witness: a manager on team 1 may modify the team-1 request; a
technician on team 1 who is not the assignee may view but not modify it. -/
theorem claim_C9_witness :
    canModifyRequest (some managerUser) (some newRequest) = true ∧
    canModifyRequest (some techUser) (some newRequest) = false ∧
    canViewRequest (some techUser) (some newRequest) = true :=
  ⟨(claim_C9_modify_policy.1 managerUser newRequest).mpr
     (Or.inr (Or.inl ⟨rfl, rfl⟩)),
   (claim_C9_modify_policy.2.1 techUser newRequest rfl rfl (by decide)).1,
   (claim_C9_modify_policy.2.1 techUser newRequest rfl rfl (by decide)).2⟩

/-- C10: modification permission is at least as restrictive as viewing
permission: for every optional actor and optional request, whenever
canModifyRequest returns true so does canViewRequest. -/
theorem claim_C10_modify_implies_view :
    ∀ (ou : Option User) (orr : Option MaintenanceRequest),
      canModifyRequest ou orr = true → canViewRequest ou orr = true := by
  intro ou orr h
  cases ou with
  | none => cases orr <;> simp [canModifyRequest] at h
  | some u =>
    cases orr with
    | none => simp [canModifyRequest] at h
    | some r =>
      obtain ⟨uid, urole, uteam⟩ := u
      cases urole <;>
        simp [canModifyRequest, canViewRequest, isAdmin, isManager,
              isTechnician, hasRole, belongsToTeam] at h ⊢ <;>
        simp [h]

/-- C10 witness: the admin may modify the request, hence may view it. -/
theorem claim_C10_witness :
    canViewRequest (some adminUser) (some newRequest) = true :=
  claim_C10_modify_implies_view (some adminUser) (some newRequest) rfl

end GearGuard
